import Mathlib

/-!
Verification of the RLDuels preference-labeling pipeline.

Shallow embedding of the parts of the repository that the checked
properties concern:

* `rlduels/src/primitives/trajectory_pair.py` — the data model
  (`Transition`, `Trajectory`, `TrajectoryPair`).
* `rlduels/src/database/database_manager.py` — the MongoDB store adapter
  (`MongoDBManager.get_next_entry`, `update_entry`, `gather_preferences`).
  A Mongo collection is a list of stored pairs; `find_one` with an
  ascending sort on the identifier is the minimum-identifier document
  among those matching the filter.
* `rlduels/src/create_video.py` — the renderer
  (`generate_video_from_frames`, `create_video_from_pair`, and the seeded
  trajectory replay, embedded as the trace of environment operations).
* `rlduels/src/buffered_queue_manager.py` — the buffered pipeline
  (one iteration of `BufferedQueueManager._refill_loop`, the blocking
  dequeue, and traces interleaving refill cycles with dequeues).
* `src/DataHandling/buffered_queue_manager.py` — the legacy pipeline
  rewrite, embedded where a claim cites it (its refill loop sleeps a
  second time in the no-entry branch and attaches the rendered video
  paths before enqueueing).

Store identifiers are embedded as naturals: the store sorts identifiers,
and the properties below only need a sortable identifier domain.
External effects (the gym environment, the filesystem, wall-clock
timestamps, exceptions raised by the Mongo driver) enter as explicit
oracle parameters.
-/

namespace RLDuels

/-- Preference values actually written by the program:
`prefer_video1` stores 0, `prefer_video2` stores 1, `prefer_no_video`
stores 0.5 (trajectory_pair.py lines 131-138). -/
inductive Pref where
  | video1
  | video2
  | tie
  deriving Repr, DecidableEq

/-- One environment step (trajectory_pair.py, class Transition).
The NDArray payloads of state, action and next state are embedded as
integer lists; their contents only matter up to equality. -/
structure Transition where
  state : List Int
  action : List Int
  reward : Int
  terminated : Bool
  truncated : Bool
  next_state : List Int
  deriving Repr, DecidableEq

/-- A recorded trajectory (trajectory_pair.py, class Trajectory).
`seed` embeds `information["seed"]`: the only key of the information
dict that the renderer reads; `none` when the key is absent. -/
structure Trajectory where
  env_name : String
  seed : Option Nat
  transitions : List Transition
  deriving Repr, DecidableEq

/-- The unit of labeling work (trajectory_pair.py, class TrajectoryPair).
`id` is the store identifier (`_id` after `add_entry` renames it),
embedded as a natural; `preference` is `None` until labeled; `skipped`
is a non-optional boolean; `video1`/`video2` are the artifact paths,
absent until attached. -/
structure TrajectoryPair where
  id : Nat
  trajectory1 : Trajectory
  trajectory2 : Trajectory
  env_name : String
  preference : Option Pref
  skipped : Bool
  video1 : Option String
  video2 : Option String
  deriving Repr, DecidableEq

/-- Construction with the pydantic field defaults of TrajectoryPair:
`preference = None`, `skipped = False`, `video1 = video2 = None`, and
`env_name` copied from trajectory1 by the `set_env_name` validator. -/
def TrajectoryPair.make (i : Nat) (t1 t2 : Trajectory) : TrajectoryPair :=
  { id := i
    trajectory1 := t1
    trajectory2 := t2
    env_name := t1.env_name
    preference := none
    skipped := false
    video1 := none
    video2 := none }

/-! ## MongoDB store adapter (database/database_manager.py) -/

/-- The identifier part of the next-unprocessed query: no constraint
when `id_of_current_video` is `None`, otherwise `_id > cursor`
(database_manager.py lines 192-195). -/
def cursorAllows : Option Nat → Nat → Bool
  | none, _ => true
  | some c, i => decide (c < i)

/-- The filter of `MongoDBManager.get_next_entry`:
`preference is None`, `skipped is False`, plus the cursor constraint
(database_manager.py lines 192-195). -/
def matchesNextQuery (cursor : Option Nat) (p : TrajectoryPair) : Bool :=
  p.preference.isNone && (!p.skipped) && cursorAllows cursor p.id

/-- `find_one(query, sort=[("_id", 1)])` on a list of matching
documents: the document with the smallest identifier, `none` on the
empty list. -/
def minIdDoc : List TrajectoryPair → Option TrajectoryPair
  | [] => none
  | d :: ds =>
      match minIdDoc ds with
      | none => some d
      | some e => if d.id ≤ e.id then some d else some e

/-- The mutable state of a `MongoDBManager`: the `videos` collection and
the `id_of_current_video` cursor. -/
structure MongoState where
  collection : List TrajectoryPair
  idOfCurrentVideo : Option Nat
  deriving Repr, DecidableEq

/-- Message returned by `get_next_entry` when the query matches nothing
(database_manager.py line 207). -/
def noMoreEntriesMsg : String := "No more unprocessed entries found."

/-- Message returned on `errors.ConnectionFailure`
(database_manager.py line 209). -/
def connectionFailureMsg : String := "Connection to DB could not be made."

/-- `MongoDBManager.get_next_entry` (database_manager.py lines 183-211):
`find_one` of the unprocessed filter sorted ascending by `_id`; on a hit
the cursor advances to the identifier of the hit and the pair is
returned with no error; otherwise `(None, noMoreEntriesMsg)` and the
state is unchanged. -/
def MongoDBManager.get_next_entry (s : MongoState) :
    (Option TrajectoryPair × Option String) × MongoState :=
  match minIdDoc (s.collection.filter (matchesNextQuery s.idOfCurrentVideo)) with
  | some e => ((some e, none), { s with idOfCurrentVideo := some e.id })
  | none => ((none, some noMoreEntriesMsg), s)

/-- Message of the unreachable empty-update branch of `update_entry`
(database_manager.py line 170). -/
def noUpdateFieldsMsg : String := "No update fields provided."

/-- Message of the `modified_count == 0` branch of `update_entry`
(database_manager.py line 177). -/
def noUpdateNeededMsg : String := "Entry found but no update was needed."

/-- Message of the successful branch of `update_entry`
(database_manager.py line 179, with `modified_count = 1`). -/
def updateSuccessMsg : String := "Entry successfully updated. 1 documents affected."

/-- The update document built by `update_entry` (database_manager.py
lines 163-167): `preference` is included when it is not `None`;
`skipped` is included when it is not `None`, which is always, because
the field is a non-optional boolean. `some v` means the field is
present with value `v`. -/
def MongoDBManager.updateFields (p : TrajectoryPair) : Option Pref × Option Bool :=
  (p.preference, some p.skipped)

/-- Effect of `$set` with the update document on one stored document:
each present field is overwritten, everything else is untouched. -/
def MongoDBManager.setFields (uf : Option Pref × Option Bool)
    (d : TrajectoryPair) : TrajectoryPair :=
  { d with
    preference :=
      match uf.1 with
      | some v => some v
      | none => d.preference
    skipped :=
      match uf.2 with
      | some b => b
      | none => d.skipped }

/-- `collection.update_one(filter, new_values)`: rewrite the first
document whose identifier matches, and report `modified_count` (1 when
the rewrite changed the document, else 0). -/
def MongoDBManager.updateOne (docs : List TrajectoryPair) (pid : Nat)
    (uf : Option Pref × Option Bool) : List TrajectoryPair × Nat :=
  match docs with
  | [] => ([], 0)
  | d :: ds =>
      if d.id = pid then
        (MongoDBManager.setFields uf d :: ds,
          if MongoDBManager.setFields uf d = d then 0 else 1)
      else
        let r := MongoDBManager.updateOne ds pid uf
        (d :: r.1, r.2)

/-- `MongoDBManager.update_entry` (database_manager.py lines 151-181):
build the update document from `preference` and `skipped`, fail with
`noUpdateFieldsMsg` if it is empty, otherwise `update_one` on the
identifier and report failure with `noUpdateNeededMsg` exactly when
`modified_count == 0` — which happens both when no document matches the
identifier and when the matched document already holds the values. -/
def MongoDBManager.update_entry (s : MongoState) (p : TrajectoryPair) :
    (Option String × Option String) × MongoState :=
  let uf := MongoDBManager.updateFields p
  if uf.1 = none ∧ uf.2 = none then
    ((none, some noUpdateFieldsMsg), s)
  else
    let r := MongoDBManager.updateOne s.collection p.id uf
    if r.2 = 0 then
      ((none, some noUpdateNeededMsg), { s with collection := r.1 })
    else
      ((some updateSuccessMsg, none), { s with collection := r.1 })

/-- A raw stored document as `gather_preferences` iterates the
collection: `good p` is a document that `TrajectoryPair.from_db` parses
back to `p`; `bad i` is a document with identifier `i` on which
`TrajectoryPair.from_db` raises. -/
inductive RawDoc where
  | good (p : TrajectoryPair)
  | bad (docId : Nat)
  deriving Repr, DecidableEq

/-- The per-document loop of `gather_preferences` (database_manager.py
lines 224-232). A parsed document contributes its pair and its stored
preference. When `from_db` raises, control reaches the per-document
handler, whose log message evaluates `doc["_id"]` — but `_id` was
popped two lines earlier, so the handler itself raises `KeyError`
before `continue` runs; that `KeyError` leaves the loop, so the whole
iteration aborts (`none`). -/
def MongoDBManager.gatherLoop :
    List RawDoc → Option (List (TrajectoryPair × Option Pref))
  | [] => some []
  | RawDoc.good p :: rest =>
      (MongoDBManager.gatherLoop rest).map (fun l => (p, p.preference) :: l)
  | RawDoc.bad _ :: _ => none

/-- `MongoDBManager.gather_preferences` (database_manager.py lines
213-240). `connOk = false` is the `ConnectionFailure` path (logged,
returns `[]`). An aborted document loop is caught by the outer
`except Exception`, which also returns `[]` — discarding the documents
already collected. -/
def MongoDBManager.gather_preferences (connOk : Bool) (docs : List RawDoc) :
    List (TrajectoryPair × Option Pref) :=
  if connOk then
    match MongoDBManager.gatherLoop docs with
    | some res => res
    | none => []
  else []

/-! ## Renderer (create_video.py) -/

/-- The shape of one rendered frame, as far as
`generate_video_from_frames` inspects it: `frames[0].shape` unpacks to
height, width and channel count, and only `layers != 3` is checked. -/
structure Frame where
  height : Nat
  width : Nat
  layers : Nat
  deriving Repr, DecidableEq

/-- `config["VIDEO_FOLDER"]`, fixed by the loaded configuration. -/
def video_folder : String := "videos"

/-- `generate_video_from_frames` (create_video.py lines 58-92): raises
`ValueError` on an empty frame list, raises `ValueError` when the first
frame is not 3-channel, otherwise writes the video and returns its
path. The wall-clock timestamp suffix of the file name is external and
not modeled; the returned path is the deterministic part. -/
def generate_video_from_frames (frames : List Frame) : Except String String :=
  match frames with
  | [] => Except.error "The frames list is empty. Cannot generate video."
  | f :: _ =>
      if f.layers ≠ 3 then Except.error "Frames are not an RGB-array."
      else Except.ok (video_folder ++ "/trajectory.webm")

/-- `create_video_from_pair` (create_video.py lines 27-56), the function
the refill loop imports under the name `create_videos_from_pair`. The
frames recreated for the two trajectories come from the external gym
environment and enter as the oracle arguments. The function renders
both trajectories and returns the two file paths; it never writes the
`video1`/`video2` fields of its argument, so the pair comes back
exactly as it went in. -/
def create_video_from_pair (frames1 frames2 : List Frame)
    (p : TrajectoryPair) : Except String (TrajectoryPair × String × String) := do
  let f1 ← generate_video_from_frames frames1
  let f2 ← generate_video_from_frames frames2
  Except.ok (p, f1, f2)

/-- Environment operations the seeded replay performs, in order. -/
inductive EnvOp where
  | reset (seed : Nat)
  | step (action : List Int)
  | render
  deriving Repr, DecidableEq

/-- The per-transition part of
`_recreate_frames_from_trajectory_with_seed` (create_video.py lines
116-123): step the recorded action, render a frame, and when the
transition is terminated or truncated, reset again — with the same
single `seed` read from `information["seed"]` (the `ctr` local of the
source is initialized and never used). -/
def seedReplayOps (seed : Nat) : List Transition → List EnvOp
  | [] => []
  | tr :: rest =>
      EnvOp.step tr.action :: EnvOp.render ::
        (if tr.terminated || tr.truncated then
          EnvOp.reset seed :: seedReplayOps seed rest
        else
          seedReplayOps seed rest)

/-- `_recreate_frames_from_trajectory_with_seed` (create_video.py lines
109-125) as the trace of environment operations it performs: an initial
`env.reset(seed=seed)` followed by the replay of the transitions. -/
def recreate_frames_from_trajectory_with_seed (seed : Nat)
    (t : Trajectory) : List EnvOp :=
  EnvOp.reset seed :: seedReplayOps seed t.transitions

/-- Modelled from the spec: the seeded reconstruction the spec
describes, in which the trajectory carries a queue of seeds consumed
one per episode boundary — reset to the first seed, replay each action,
and at each terminated or truncated transition reset with the next seed
of the queue. Written only to compare against the trace of the source
function `recreate_frames_from_trajectory_with_seed`. -/
def specSeedQueueReplayOps : List Nat → List Transition → List EnvOp
  | _, [] => []
  | seeds, tr :: rest =>
      EnvOp.step tr.action :: EnvOp.render ::
        (if tr.terminated || tr.truncated then
          EnvOp.reset (seeds.headD 0) :: specSeedQueueReplayOps (seeds.tail) rest
        else
          specSeedQueueReplayOps seeds rest)

/-- Modelled from the spec: whole-trajectory version of
`specSeedQueueReplayOps`, resetting to the first seed of the queue and
then consuming the rest at episode boundaries. -/
def specSeedQueueTrace (seeds : List Nat) (t : Trajectory) : List EnvOp :=
  EnvOp.reset (seeds.headD 0) :: specSeedQueueReplayOps seeds.tail t.transitions

/-- The actions an operation trace performs, in order. -/
def opsSteps : List EnvOp → List (List Int)
  | [] => []
  | EnvOp.step a :: rest => a :: opsSteps rest
  | _ :: rest => opsSteps rest

/-- The seeds of the resets an operation trace performs, in order. -/
def opsResetSeeds : List EnvOp → List Nat
  | [] => []
  | EnvOp.reset s :: rest => s :: opsResetSeeds rest
  | _ :: rest => opsResetSeeds rest

/-! ## Buffered pipeline (buffered_queue_manager.py) -/

/-- The mutable state of a `BufferedQueueManager` together with its
backing `MongoDBManager`: the bounded queue (front of the list is the
next element `Queue.get` returns), the `last_processed_id` attribute,
and the queue capacity `n` (`Queue(maxsize=n)`). -/
structure PipelineState where
  mongo : MongoState
  queue : List TrajectoryPair
  lastProcessedId : Option Nat
  capacity : Nat
  deriving Repr, DecidableEq

/-- External nondeterminism of one refill cycle: `dbExc = some m` means
the Mongo driver raised inside `get_next_entry` (for example a
`ConnectionFailure`), which `get_next_entry` catches itself, returning
`(None, m)` with the cursor untouched; `frames1`/`frames2` are the
frames the gym environment produces for the two trajectories of the
fetched pair. -/
structure RefillOracle where
  dbExc : Option String
  frames1 : List Frame
  frames2 : List Frame
  deriving Repr, DecidableEq

/-- `MongoDBManager.get_next_entry` with its exception behavior: a
driver exception is caught inside the method and surfaces as
`(None, message)` with the manager state unchanged. -/
def MongoDBManager.get_next_entry_exc (exc : Option String) (s : MongoState) :
    (Option TrajectoryPair × Option String) × MongoState :=
  match exc with
  | some msg => ((none, some msg), s)
  | none => MongoDBManager.get_next_entry s

/-- The body of the `try` of one `BufferedQueueManager._refill_loop`
iteration (buffered_queue_manager.py lines 48-56), before the
`except Exception` handler: when the queue is not full, fetch; when the
fetch yields an entry and no error, render it with
`create_video_from_pair` (imported as `create_videos_from_pair`), push
the entry — the fetched object itself, whose artifact fields the
renderer never set — and record `last_processed_id`. The second
component is the exception escaping the body, `none` when it returns
normally: only the renderer raises here, and when it does, the cursor
advance performed inside `get_next_entry` is already in place while
nothing is pushed. -/
def BufferedQueueManager.refill_try_body (st : PipelineState)
    (o : RefillOracle) : PipelineState × Option String :=
  if st.queue.length < st.capacity then
    match MongoDBManager.get_next_entry_exc o.dbExc st.mongo with
    | ((some e, none), mongo2) =>
        match create_video_from_pair o.frames1 o.frames2 e with
        | Except.ok _ =>
            ({ st with
                mongo := mongo2
                queue := st.queue ++ [e]
                lastProcessedId := some e.id }, none)
        | Except.error msg => ({ st with mongo := mongo2 }, some msg)
    | ((_, _), mongo2) => ({ st with mongo := mongo2 }, none)
  else (st, none)

/-- One full iteration of `BufferedQueueManager._refill_loop`: the
`except Exception` handler only logs, so the iteration always completes
with the state the body reached. -/
def BufferedQueueManager.refill_cycle (st : PipelineState)
    (o : RefillOracle) : PipelineState :=
  (BufferedQueueManager.refill_try_body st o).1

/-- One completed interaction with the pipeline: a refill-loop
iteration, or a consumer dequeue (`BufferedQueueManager.get_next_entry`,
a blocking `Queue.get`). -/
inductive PipeAction where
  | refill (o : RefillOracle)
  | dequeue
  deriving Repr, DecidableEq

/-- Effect of one action: a refill iteration changes the state and
delivers nothing; a dequeue removes and delivers the queue head.
`Queue.get(block=True)` blocks on an empty queue, so a completed
dequeue only exists when the queue is nonempty — the empty case stands
for a caller still blocked, delivering nothing. -/
def stepAction (st : PipelineState) : PipeAction → PipelineState × List TrajectoryPair
  | PipeAction.refill o => (BufferedQueueManager.refill_cycle st o, [])
  | PipeAction.dequeue =>
      match st.queue with
      | [] => (st, [])
      | e :: rest => ({ st with queue := rest }, [e])

/-- Run a trace of actions, collecting everything dequeued, in order. -/
def runTrace (st : PipelineState) : List PipeAction → PipelineState × List TrajectoryPair
  | [] => (st, [])
  | a :: rest =>
      let s2 := stepAction st a
      let r := runTrace s2.1 rest
      (r.1, s2.2 ++ r.2)

/-- The pipeline as `BufferedQueueManager.__init__` builds it over a
store holding the collection `S`: empty queue, no cursor, no
last-processed id, capacity `cap`. -/
def initState (S : List TrajectoryPair) (cap : Nat) : PipelineState :=
  { mongo := { collection := S, idOfCurrentVideo := none }
    queue := []
    lastProcessedId := none
    capacity := cap }

/-- One iteration of `BufferedQueueManager._refill_loop` again, now also
counting the store round-trips and the `time.sleep` calls of the
iteration: the store is called exactly when the queue is not full, and
`time.sleep(self.sleep_interval)` runs once after the `try`/`except` on
every path (buffered_queue_manager.py line 59). -/
def BufferedQueueManager.refill_cycle_counted (st : PipelineState)
    (o : RefillOracle) : PipelineState × Nat × Nat :=
  if st.queue.length < st.capacity then
    match MongoDBManager.get_next_entry_exc o.dbExc st.mongo with
    | ((some e, none), mongo2) =>
        match create_video_from_pair o.frames1 o.frames2 e with
        | Except.ok _ =>
            ({ st with
                mongo := mongo2
                queue := st.queue ++ [e]
                lastProcessedId := some e.id }, 1, 1)
        | Except.error _ => ({ st with mongo := mongo2 }, 1, 1)
    | ((_, _), mongo2) => ({ st with mongo := mongo2 }, 1, 1)
  else (st, 0, 1)

/-! ## Legacy pipeline (src/DataHandling/buffered_queue_manager.py) -/

/-- Artifact paths the legacy `VideoExtractor.generate_video_from_pair`
returns; the legacy refill loop attaches them with `set_video1` and
`set_video2` before enqueueing. -/
def legacyVideoPath1 : String := video_folder ++ "/trajectory1.webm"

/-- Second artifact path of the legacy video extractor. -/
def legacyVideoPath2 : String := video_folder ++ "/trajectory2.webm"

/-- The legacy `VideoExtractor.generate_video_from_pair`
(src/DataHandling/video_extractor.py lines 74-102): render both
trajectories and encode each with `generate_video`, which performs the
same two checks as `generate_video_from_frames` (raise on an empty
frame list, raise when the first frame is not 3-channel) before writing
the file. The frames the environment produces for the two trajectories
enter as the oracle arguments; the legacy seeded replay can itself
raise (`seeds[ctr]` past the end of the seed list), which surfaces here
the same way as a frame-check failure: an escaping exception. The two
returned timestamped paths are modeled by the distinct constants
`legacyVideoPath1` and `legacyVideoPath2`. -/
def VideoExtractor.generate_video_from_pair (frames1 frames2 : List Frame) :
    Except String (String × String) :=
  match generate_video_from_frames frames1 with
  | Except.error e => Except.error e
  | Except.ok _ =>
      match generate_video_from_frames frames2 with
      | Except.error e => Except.error e
      | Except.ok _ => Except.ok (legacyVideoPath1, legacyVideoPath2)

/-- One iteration of the legacy `BufferedQueueManager.refill_loop`
(src/DataHandling/buffered_queue_manager.py lines 48-67): the state the
iteration reaches together with its store-call count and sleep count,
and, in the second component, the exception escaping the iteration —
the legacy loop has no `try`/`except`, so a raising
`generate_video_from_pair` aborts the cycle before both sleeps and
kills the refill thread. When the queue is not full the loop fetches;
`if new_entry is not None` guards only on the entry: on a hit the
videos are generated and attached with `set_video1`/`set_video2`, the
entry is pushed and `last_processed_id` copies the db cursor, then the
loop sleeps once at line 67 — unless the renderer raises, in which case
nothing is attached or pushed and no sleep runs. On a miss the loop
sleeps at line 66 inside the branch and again at line 67, two sleep
intervals in that cycle. When the queue is full it makes no store call
and sleeps once. -/
def BufferedQueueManager.legacy_refill_cycle (st : PipelineState)
    (o : RefillOracle) : (PipelineState × Nat × Nat) × Option String :=
  if st.queue.length < st.capacity then
    match MongoDBManager.get_next_entry_exc o.dbExc st.mongo with
    | ((some e, _), mongo2) =>
        match VideoExtractor.generate_video_from_pair o.frames1 o.frames2 with
        | Except.ok (v1, v2) =>
            (({ st with
                mongo := mongo2
                queue := st.queue ++
                  [{ e with video1 := some v1, video2 := some v2 }]
                lastProcessedId := mongo2.idOfCurrentVideo }, 1, 1), none)
        | Except.error msg => (({ st with mongo := mongo2 }, 1, 0), some msg)
    | ((none, _), mongo2) => (({ st with mongo := mongo2 }, 1, 2), none)
  else ((st, 0, 1), none)

/-! ## Ordering and delivery lemmas -/

/-- Identifier order on stored pairs. -/
def idLt (a b : TrajectoryPair) : Prop := a.id < b.id

/-- A store whose entries are all unlabeled and unskipped. -/
def Unprocessed (S : List TrajectoryPair) : Prop :=
  ∀ p ∈ S, p.preference = none ∧ p.skipped = false

lemma minIdDoc_mem : ∀ {l : List TrajectoryPair} {e}, minIdDoc l = some e → e ∈ l := by
  intro l
  induction l with
  | nil => intro e h; simp [minIdDoc] at h
  | cons d ds ih =>
      intro e h
      simp only [minIdDoc] at h
      cases hm : minIdDoc ds with
      | none =>
          rw [hm] at h
          simp only [Option.some.injEq] at h
          simp [h]
      | some q =>
          rw [hm] at h
          by_cases hle : d.id ≤ q.id
          · simp only [hle, if_true, Option.some.injEq] at h
            simp [h]
          · simp only [hle, if_false, Option.some.injEq] at h
            exact List.mem_cons_of_mem _ (ih (h ▸ hm))

lemma minIdDoc_eq_head : ∀ {l : List TrajectoryPair}, l.Pairwise idLt →
    minIdDoc l = l.head? := by
  intro l
  induction l with
  | nil => intro _; rfl
  | cons d ds ih =>
      intro h
      have hpair := List.pairwise_cons.mp h
      simp only [minIdDoc, ih hpair.2]
      cases ds with
      | nil => rfl
      | cons a t =>
          have hle : d.id ≤ a.id :=
            Nat.le_of_lt (hpair.1 a (List.mem_cons_self a t))
          simp [hle]

lemma filter_cursor_none {S : List TrajectoryPair} (hu : Unprocessed S) :
    S.filter (matchesNextQuery none) = S :=
  List.filter_eq_self.mpr (fun p hp => by
    simp [matchesNextQuery, cursorAllows, (hu p hp).1, (hu p hp).2])

lemma filter_cursor_eq {R' : List TrajectoryPair} {e : TrajectoryPair} :
    ∀ {P : List TrajectoryPair},
      (P ++ e :: R').Pairwise idLt → Unprocessed (P ++ e :: R') →
      (P ++ e :: R').filter (matchesNextQuery (some e.id)) = R' := by
  intro P
  induction P with
  | nil =>
      intro hs hu
      rw [List.nil_append] at hs hu
      have he : ¬ matchesNextQuery (some e.id) e = true := by
        simp [matchesNextQuery, cursorAllows]
      rw [List.nil_append, List.filter_cons_of_neg he, List.filter_eq_self.mpr]
      intro q hq
      have h1 : e.id < q.id := (List.pairwise_cons.mp hs).1 q hq
      have h2 := hu q (List.mem_cons_of_mem _ hq)
      simp [matchesNextQuery, cursorAllows, h1, h2.1, h2.2]
  | cons p P ih =>
      intro hs hu
      rw [List.cons_append] at hs hu ⊢
      have hpair := List.pairwise_cons.mp hs
      have hpe : p.id < e.id :=
        hpair.1 e (List.mem_append_right P (List.mem_cons_self e R'))
      have hp : ¬ matchesNextQuery (some e.id) p = true := by
        have hlt : ¬ e.id < p.id := Nat.lt_asymm hpe
        simp [matchesNextQuery, cursorAllows, hlt]
      rw [List.filter_cons_of_neg hp]
      exact ih hpair.2 (fun q hq => hu q (List.mem_cons_of_mem _ hq))

/-- When the remaining matching documents are `e :: R'`, the sorted
`find_one` of `get_next_entry` returns `e` and advances the cursor to
its identifier. -/
lemma get_next_entry_of_filter_cons {s : MongoState} {e : TrajectoryPair}
    {R' : List TrajectoryPair}
    (hp : (s.collection.filter (matchesNextQuery s.idOfCurrentVideo)).Pairwise idLt)
    (hf : s.collection.filter (matchesNextQuery s.idOfCurrentVideo) = e :: R') :
    MongoDBManager.get_next_entry s =
      ((some e, none), { s with idOfCurrentVideo := some e.id }) := by
  unfold MongoDBManager.get_next_entry
  rw [minIdDoc_eq_head hp, hf]
  rfl

/-- When no document matches, `get_next_entry` reports the
informational no-more-entries message and leaves the state alone. -/
lemma get_next_entry_of_filter_nil {s : MongoState}
    (hf : s.collection.filter (matchesNextQuery s.idOfCurrentVideo) = []) :
    MongoDBManager.get_next_entry s = ((none, some noMoreEntriesMsg), s) := by
  unfold MongoDBManager.get_next_entry
  rw [hf]
  rfl

/-- Delivery invariant of the pipeline over a fixed store `S`:
the store never changes, the matching remainder of the next-entry query
is exactly a suffix `R` of `S`, and everything delivered so far followed
by the queue contents is a sublist of the processed prefix `P`. -/
def PipeInv (S outs : List TrajectoryPair) (st : PipelineState) : Prop :=
  st.mongo.collection = S ∧
  ∃ P R, S = P ++ R ∧
    S.filter (matchesNextQuery st.mongo.idOfCurrentVideo) = R ∧
    List.Sublist (outs ++ st.queue) P

lemma refill_preserves_inv {S : List TrajectoryPair} (hs : S.Pairwise idLt)
    (hu : Unprocessed S) {st : PipelineState} {outs : List TrajectoryPair}
    (h : PipeInv S outs st) (o : RefillOracle) :
    PipeInv S outs (BufferedQueueManager.refill_cycle st o) := by
  obtain ⟨hcoll, P, R, hSPR, hfilt, hsub⟩ := h
  by_cases hfull : st.queue.length < st.capacity
  · cases hexc : o.dbExc with
    | some m =>
        have hcyc : BufferedQueueManager.refill_cycle st o = st := by
          unfold BufferedQueueManager.refill_cycle BufferedQueueManager.refill_try_body
          simp [hfull, hexc, MongoDBManager.get_next_entry_exc]
        rw [hcyc]
        exact ⟨hcoll, P, R, hSPR, hfilt, hsub⟩
    | none =>
        have hpR : R.Pairwise idLt := by
          rw [← hfilt]
          exact List.Pairwise.sublist (List.filter_sublist S) hs
        cases hR : R with
        | nil =>
            have hget : MongoDBManager.get_next_entry st.mongo =
                ((none, some noMoreEntriesMsg), st.mongo) :=
              get_next_entry_of_filter_nil (by rw [hcoll]; rw [hfilt, hR])
            have hcyc : BufferedQueueManager.refill_cycle st o = st := by
              unfold BufferedQueueManager.refill_cycle BufferedQueueManager.refill_try_body
              simp [hfull, hexc, MongoDBManager.get_next_entry_exc, hget]
            rw [hcyc]
            exact ⟨hcoll, P, R, hSPR, hfilt, hsub⟩
        | cons e R' =>
            have hS2 : S = P ++ e :: R' := by rw [hSPR, hR]
            have hget : MongoDBManager.get_next_entry st.mongo =
                ((some e, none), { st.mongo with idOfCurrentVideo := some e.id }) :=
              get_next_entry_of_filter_cons
                (by rw [hcoll]; rw [hfilt]; exact hR ▸ hpR)
                (by rw [hcoll]; rw [hfilt, hR])
            have hSdec : S = (P ++ [e]) ++ R' := by
              rw [hS2]; simp
            have hfilt2 :
                S.filter (matchesNextQuery (some e.id)) = R' := by
              rw [hS2]
              exact filter_cursor_eq (hS2 ▸ hs) (hS2 ▸ hu)
            cases hrender : create_video_from_pair o.frames1 o.frames2 e with
            | ok v =>
                have hcyc : BufferedQueueManager.refill_cycle st o =
                    { st with
                        mongo := { st.mongo with idOfCurrentVideo := some e.id }
                        queue := st.queue ++ [e]
                        lastProcessedId := some e.id } := by
                  unfold BufferedQueueManager.refill_cycle
                    BufferedQueueManager.refill_try_body
                  simp [hfull, hexc, MongoDBManager.get_next_entry_exc, hget, hrender]
                rw [hcyc]
                refine ⟨hcoll, P ++ [e], R', hSdec, hfilt2, ?_⟩
                have hap := List.Sublist.append hsub (List.Sublist.refl [e])
                simpa [List.append_assoc] using hap
            | error msg =>
                have hcyc : BufferedQueueManager.refill_cycle st o =
                    { st with
                        mongo := { st.mongo with idOfCurrentVideo := some e.id } } := by
                  unfold BufferedQueueManager.refill_cycle
                    BufferedQueueManager.refill_try_body
                  simp [hfull, hexc, MongoDBManager.get_next_entry_exc, hget, hrender]
                rw [hcyc]
                refine ⟨hcoll, P ++ [e], R', hSdec, hfilt2, ?_⟩
                exact hsub.trans (List.sublist_append_left P [e])
  · have hcyc : BufferedQueueManager.refill_cycle st o = st := by
      unfold BufferedQueueManager.refill_cycle BufferedQueueManager.refill_try_body
      simp [hfull]
    rw [hcyc]
    exact ⟨hcoll, P, R, hSPR, hfilt, hsub⟩

lemma dequeue_preserves_inv {S outs : List TrajectoryPair} {st : PipelineState}
    (h : PipeInv S outs st) :
    PipeInv S (outs ++ (stepAction st PipeAction.dequeue).2)
      (stepAction st PipeAction.dequeue).1 := by
  obtain ⟨hcoll, P, R, hSPR, hfilt, hsub⟩ := h
  cases hq : st.queue with
  | nil =>
      simp only [stepAction, hq]
      exact ⟨hcoll, P, R, hSPR, hfilt, by simpa using hsub⟩
  | cons e rest =>
      simp only [stepAction, hq]
      refine ⟨hcoll, P, R, hSPR, hfilt, ?_⟩
      have : (outs ++ [e]) ++ rest = outs ++ st.queue := by
        rw [hq]; simp
      rw [this]
      exact hsub

lemma run_preserves_inv {S : List TrajectoryPair} (hs : S.Pairwise idLt)
    (hu : Unprocessed S) :
    ∀ (acts : List PipeAction) (st : PipelineState) (outs : List TrajectoryPair),
      PipeInv S outs st →
      PipeInv S (outs ++ (runTrace st acts).2) (runTrace st acts).1 := by
  intro acts
  induction acts with
  | nil =>
      intro st outs h
      simpa [runTrace] using h
  | cons a rest ih =>
      intro st outs h
      have h1 : PipeInv S (outs ++ (stepAction st a).2) (stepAction st a).1 := by
        cases a with
        | refill o =>
            simpa [stepAction] using refill_preserves_inv hs hu h o
        | dequeue => exact dequeue_preserves_inv h
      have h2 := ih (stepAction st a).1 (outs ++ (stepAction st a).2) h1
      simpa [runTrace, List.append_assoc] using h2

/-! ## Capacity lemmas -/

lemma refill_cycle_capacity (st : PipelineState) (o : RefillOracle) :
    (BufferedQueueManager.refill_cycle st o).capacity = st.capacity := by
  unfold BufferedQueueManager.refill_cycle BufferedQueueManager.refill_try_body
  split
  · split
    · split <;> rfl
    · rfl
  · rfl

lemma refill_cycle_queue_le (st : PipelineState) (o : RefillOracle)
    (h : st.queue.length ≤ st.capacity) :
    (BufferedQueueManager.refill_cycle st o).queue.length ≤ st.capacity := by
  unfold BufferedQueueManager.refill_cycle BufferedQueueManager.refill_try_body
  split
  · rename_i hfull
    split
    · split
      · simpa using hfull
      · exact h
    · exact h
  · exact h

lemma stepAction_bound (st : PipelineState) (a : PipeAction)
    (h : st.queue.length ≤ st.capacity) :
    (stepAction st a).1.queue.length ≤ (stepAction st a).1.capacity ∧
    (stepAction st a).1.capacity = st.capacity := by
  cases a with
  | refill o =>
      constructor
      · show (BufferedQueueManager.refill_cycle st o).queue.length ≤
          (BufferedQueueManager.refill_cycle st o).capacity
        rw [refill_cycle_capacity st o]
        exact refill_cycle_queue_le st o h
      · exact refill_cycle_capacity st o
  | dequeue =>
      cases hq : st.queue with
      | nil =>
          simp only [stepAction, hq]
          exact ⟨Nat.zero_le _, trivial⟩
      | cons e rest =>
          simp only [stepAction, hq]
          refine ⟨?_, trivial⟩
          have h2 : rest.length + 1 ≤ st.capacity := by
            have h3 := h
            rw [hq] at h3
            simpa using h3
          exact Nat.le_of_succ_le h2

lemma runTrace_bound : ∀ (acts : List PipeAction) (st : PipelineState),
    st.queue.length ≤ st.capacity →
    (runTrace st acts).1.queue.length ≤ (runTrace st acts).1.capacity ∧
    (runTrace st acts).1.capacity = st.capacity := by
  intro acts
  induction acts with
  | nil => intro st h; exact ⟨h, rfl⟩
  | cons a rest ih =>
      intro st h
      obtain ⟨h1, h2⟩ := stepAction_bound st a h
      obtain ⟨h3, h4⟩ := ih (stepAction st a).1 h1
      refine ⟨by simpa [runTrace] using h3, ?_⟩
      rw [← h2]
      simpa [runTrace] using h4

/-! ## Concrete inputs used by witnesses and counterexamples -/

/-- A single valid 3-channel frame from the environment. -/
def framesOk : List Frame := [{ height := 2, width := 2, layers := 3 }]

/-- An error-free refill cycle: no driver exception, valid frames. -/
def oracleOk : RefillOracle :=
  { dbExc := none, frames1 := framesOk, frames2 := framesOk }

/-- A cycle in which the Mongo driver raises `ConnectionFailure`. -/
def oracleDbErr : RefillOracle :=
  { dbExc := some connectionFailureMsg, frames1 := framesOk, frames2 := framesOk }

/-- A cycle whose first render produces no frames, so
`generate_video_from_frames` raises. -/
def oracleBadRender : RefillOracle :=
  { dbExc := none, frames1 := [], frames2 := framesOk }

/-- A small trajectory with no transitions. -/
def trajA : Trajectory :=
  { env_name := "CartPole-v1", seed := some 3, transitions := [] }

/-- Unprocessed pair with store identifier 1. -/
def pairW1 : TrajectoryPair := TrajectoryPair.make 1 trajA trajA

/-- Unprocessed pair with store identifier 2. -/
def pairW2 : TrajectoryPair := TrajectoryPair.make 2 trajA trajA

/-- A store of two unprocessed pairs with increasing identifiers. -/
def storeW : List TrajectoryPair := [pairW1, pairW2]

/-- Two refill cycles interleaved with two dequeues. -/
def actsW : List PipeAction :=
  [PipeAction.refill oracleOk, PipeAction.dequeue,
   PipeAction.refill oracleOk, PipeAction.dequeue]

instance : DecidableRel idLt :=
  fun a b => inferInstanceAs (Decidable (a.id < b.id))

instance (S : List TrajectoryPair) : Decidable (Unprocessed S) :=
  inferInstanceAs (Decidable (∀ p ∈ S, p.preference = none ∧ p.skipped = false))

/-! ## Claims -/

/-- Claim C1: for every sequence of N pairs inserted into the store with
strictly increasing identifiers, all unprocessed, and a single refill
process running, any interleaving of refill cycles and completed
dequeues that delivers N entries delivers exactly the N inserted pairs,
in the inserted (strictly increasing identifier) order, so no
identifier is delivered twice. -/
theorem C1_ordered_exact_delivery (S : List TrajectoryPair) (cap : Nat)
    (acts : List PipeAction)
    (hsorted : S.Pairwise idLt)
    (hunproc : Unprocessed S)
    (hN : (runTrace (initState S cap) acts).2.length = S.length) :
    (runTrace (initState S cap) acts).2 = S ∧
    ((runTrace (initState S cap) acts).2.map TrajectoryPair.id).Pairwise (· < ·) := by
  have hinit : PipeInv S [] (initState S cap) :=
    ⟨rfl, [], S, by simp, filter_cursor_none hunproc, by simp [initState]⟩
  have hinv := run_preserves_inv hsorted hunproc acts (initState S cap) [] hinit
  obtain ⟨hcoll, P, R, hSPR, hfilt, hsub⟩ := hinv
  rw [List.nil_append] at hsub
  have hPS : List.Sublist P S := by
    rw [hSPR]; exact List.sublist_append_left P R
  have hout : List.Sublist (runTrace (initState S cap) acts).2 S :=
    ((List.sublist_append_left _ _).trans hsub).trans hPS
  have heq := List.Sublist.eq_of_length hout hN
  refine ⟨heq, ?_⟩
  rw [heq]
  exact List.pairwise_map.mpr hsorted

/-- Witness for C1 at a concrete store of two pairs and a concrete
interleaving of two refill cycles and two dequeues. -/
theorem C1_witness :
    (runTrace (initState storeW 2) actsW).2 = storeW ∧
    ((runTrace (initState storeW 2) actsW).2.map TrajectoryPair.id).Pairwise (· < ·) :=
  C1_ordered_exact_delivery storeW 2 actsW (by decide) (by decide) (by decide)

/-- Claim C5: for every configured capacity, every store and every
interleaving of refill cycles and dequeues, the number of entries in
the bounded queue never exceeds the capacity. -/
theorem C5_bounded_queue (S : List TrajectoryPair) (cap : Nat)
    (acts : List PipeAction) :
    (runTrace (initState S cap) acts).1.queue.length ≤ cap := by
  have h := runTrace_bound acts (initState S cap) (by simp [initState])
  have h2 : (runTrace (initState S cap) acts).1.capacity = cap := h.2
  exact le_of_le_of_eq h.1 h2

/-! ## Claim C3: the next-unprocessed query -/

lemma minIdDoc_none : ∀ {l : List TrajectoryPair}, minIdDoc l = none → l = [] := by
  intro l h
  cases l with
  | nil => rfl
  | cons d ds =>
      simp only [minIdDoc] at h
      cases hm : minIdDoc ds with
      | none => rw [hm] at h; simp at h
      | some q => rw [hm] at h; by_cases hle : d.id ≤ q.id <;> simp [hle] at h

lemma minIdDoc_min : ∀ {l : List TrajectoryPair} {e}, minIdDoc l = some e →
    ∀ d ∈ l, e.id ≤ d.id := by
  intro l
  induction l with
  | nil => intro e h; simp [minIdDoc] at h
  | cons d ds ih =>
      intro e h
      simp only [minIdDoc] at h
      cases hm : minIdDoc ds with
      | none =>
          rw [hm] at h
          simp only [Option.some.injEq] at h
          have hds : ds = [] := minIdDoc_none hm
          subst hds
          intro x hx
          rcases List.mem_cons.mp hx with hxd | hxds
          · rw [← h, hxd]
          · simp at hxds
      | some q =>
          rw [hm] at h
          by_cases hle : d.id ≤ q.id
          · simp only [hle, if_true, Option.some.injEq] at h
            intro x hx
            rcases List.mem_cons.mp hx with hxd | hxds
            · rw [← h, hxd]
            · exact le_trans (h ▸ hle) (ih hm x hxds)
          · simp only [hle, if_false, Option.some.injEq] at h
            intro x hx
            rcases List.mem_cons.mp hx with hxd | hxds
            · rw [hxd, ← h]
              exact Nat.le_of_lt (Nat.lt_of_not_le hle)
            · exact h ▸ ih hm x hxds

/-- Claim C3: `get_next_entry` returns a stored entry with unset
preference and unskipped flag whose identifier is strictly above the
cursor and minimal among all entries matching the query, advancing the
cursor to it; when nothing matches, it returns the empty result with
the informational no-more-entries message — distinct from the message a
connection failure produces — and leaves the state alone; an entry with
a set preference or a true skipped flag is never returned. -/
theorem C3_get_next_entry_contract (s : MongoState) :
    (∀ e, (MongoDBManager.get_next_entry s).1.1 = some e →
        e ∈ s.collection ∧
        e.preference = none ∧
        e.skipped = false ∧
        (∀ c, s.idOfCurrentVideo = some c → c < e.id) ∧
        (∀ d ∈ s.collection, matchesNextQuery s.idOfCurrentVideo d = true →
          e.id ≤ d.id) ∧
        (MongoDBManager.get_next_entry s).2.idOfCurrentVideo = some e.id) ∧
    ((∀ d ∈ s.collection, matchesNextQuery s.idOfCurrentVideo d = false) →
        MongoDBManager.get_next_entry s = ((none, some noMoreEntriesMsg), s)) ∧
    noMoreEntriesMsg ≠ connectionFailureMsg ∧
    (∀ d ∈ s.collection, (¬ d.preference = none ∨ d.skipped = true) →
        ¬ (MongoDBManager.get_next_entry s).1.1 = some d) := by
  have main : ∀ e, (MongoDBManager.get_next_entry s).1.1 = some e →
      e ∈ s.collection ∧
      e.preference = none ∧
      e.skipped = false ∧
      (∀ c, s.idOfCurrentVideo = some c → c < e.id) ∧
      (∀ d ∈ s.collection, matchesNextQuery s.idOfCurrentVideo d = true →
        e.id ≤ d.id) ∧
      (MongoDBManager.get_next_entry s).2.idOfCurrentVideo = some e.id := by
    intro e he
    unfold MongoDBManager.get_next_entry at he ⊢
    cases hm : minIdDoc (s.collection.filter (matchesNextQuery s.idOfCurrentVideo)) with
    | none => rw [hm] at he; simp at he
    | some q =>
        rw [hm] at he
        have he2 : q = e := Option.some.inj he
        subst he2
        have hmemf := minIdDoc_mem hm
        have hmem := List.mem_filter.mp hmemf
        have hq3 : (q.preference.isNone = true ∧ (!q.skipped) = true) ∧
            cursorAllows s.idOfCurrentVideo q.id = true := by
          have hq := hmem.2
          unfold matchesNextQuery at hq
          rw [Bool.and_eq_true, Bool.and_eq_true] at hq
          exact hq
        refine ⟨hmem.1, ?_, ?_, ?_, ?_, ?_⟩
        · exact Option.isNone_iff_eq_none.mp hq3.1.1
        · simpa using hq3.1.2
        · intro c hc
          have hcur := hq3.2
          rw [hc] at hcur
          unfold cursorAllows at hcur
          exact of_decide_eq_true hcur
        · intro d hd hmatch
          exact minIdDoc_min hm d (List.mem_filter.mpr ⟨hd, hmatch⟩)
        · rfl
  refine ⟨main, ?_, by decide, ?_⟩
  · intro hall
    have hf : s.collection.filter (matchesNextQuery s.idOfCurrentVideo) = [] := by
      rw [List.filter_eq_nil_iff]
      intro d hd
      simp [hall d hd]
    exact get_next_entry_of_filter_nil hf
  · intro d hd hbad he
    obtain ⟨_, h1, h2, _⟩ := main d he
    rcases hbad with hb | hb
    · exact hb h1
    · rw [h2] at hb
      exact Bool.false_ne_true hb

/-- A labeled pair that the next-unprocessed query must skip. -/
def pairLabeled : TrajectoryPair :=
  { TrajectoryPair.make 1 trajA trajA with preference := some Pref.video1 }

/-- A store state with a labeled pair, an unprocessed pair and a cursor
below both. -/
def sC3 : MongoState :=
  { collection := [pairLabeled, pairW2], idOfCurrentVideo := some 0 }

/-- A store state whose only entry is labeled, so nothing matches. -/
def sC3empty : MongoState :=
  { collection := [pairLabeled], idOfCurrentVideo := none }

/-- Witness for C3: on `sC3` the query returns the unprocessed pair with
identifier 2, skipping the labeled pair with identifier 1; on a store
holding only a labeled pair it returns the informational message. -/
theorem C3_witness :
    (pairW2 ∈ sC3.collection ∧
      pairW2.preference = none ∧
      pairW2.skipped = false ∧
      (∀ c, sC3.idOfCurrentVideo = some c → c < pairW2.id) ∧
      (∀ d ∈ sC3.collection, matchesNextQuery sC3.idOfCurrentVideo d = true →
        pairW2.id ≤ d.id) ∧
      (MongoDBManager.get_next_entry sC3).2.idOfCurrentVideo = some pairW2.id) ∧
    MongoDBManager.get_next_entry sC3empty = ((none, some noMoreEntriesMsg), sC3empty) ∧
    ¬ (MongoDBManager.get_next_entry sC3).1.1 = some pairLabeled :=
  ⟨(C3_get_next_entry_contract sC3).1 pairW2 (by decide),
   (C3_get_next_entry_contract sC3empty).2.1 (by decide),
   (C3_get_next_entry_contract sC3).2.2.2 pairLabeled (by decide) (by decide)⟩

/-! ## Claim C4: error containment in the refill loop -/

lemma refill_error_state (st : PipelineState) (o : RefillOracle)
    (h : (BufferedQueueManager.refill_try_body st o).2.isSome = true) :
    (BufferedQueueManager.refill_cycle st o).queue = st.queue ∧
    (BufferedQueueManager.refill_cycle st o).lastProcessedId = st.lastProcessedId := by
  by_cases hfull : st.queue.length < st.capacity
  · cases hexc : o.dbExc with
    | some m =>
        unfold BufferedQueueManager.refill_try_body at h
        simp [hfull, hexc, MongoDBManager.get_next_entry_exc] at h
    | none =>
        rcases hdb : MongoDBManager.get_next_entry st.mongo with ⟨⟨oe, oerr⟩, m2⟩
        cases oe with
        | none =>
            unfold BufferedQueueManager.refill_try_body at h
            simp [hfull, hexc, MongoDBManager.get_next_entry_exc, hdb] at h
        | some e =>
            cases oerr with
            | some m =>
                unfold BufferedQueueManager.refill_try_body at h
                simp [hfull, hexc, MongoDBManager.get_next_entry_exc, hdb] at h
            | none =>
                cases hrender : create_video_from_pair o.frames1 o.frames2 e with
                | ok v =>
                    unfold BufferedQueueManager.refill_try_body at h
                    simp [hfull, hexc, MongoDBManager.get_next_entry_exc, hdb,
                      hrender] at h
                | error msg =>
                    have hcyc : BufferedQueueManager.refill_cycle st o =
                        { st with mongo := m2 } := by
                      unfold BufferedQueueManager.refill_cycle
                        BufferedQueueManager.refill_try_body
                      simp [hfull, hexc, MongoDBManager.get_next_entry_exc, hdb,
                        hrender]
                    rw [hcyc]
                    exact ⟨rfl, rfl⟩
  · unfold BufferedQueueManager.refill_try_body at h
    simp [hfull] at h

lemma dequeue_of_queue_eq {s1 s2 : PipelineState} (h : s1.queue = s2.queue) :
    (stepAction s1 PipeAction.dequeue).2 = (stepAction s2 PipeAction.dequeue).2 := by
  simp only [stepAction, h]
  cases s2.queue <;> rfl

/-- Claim C4: every exception escaping the body of a refill-loop
iteration (in this code path, a renderer error — driver errors are
already caught inside `get_next_entry` and surface as an error result)
is absorbed by the except handler of the loop: the iteration completes
with the queue and `last_processed_id` untouched, the loop goes on with
the remaining trace, and a dequeuing consumer receives exactly what it
would have received before the failed cycle; a fetch that reports an
error instead of an entry likewise enqueues nothing. -/
theorem C4_refill_errors_contained (st : PipelineState) (o : RefillOracle)
    (acts : List PipeAction) :
    ((BufferedQueueManager.refill_try_body st o).2.isSome = true →
        (BufferedQueueManager.refill_cycle st o).queue = st.queue ∧
        (BufferedQueueManager.refill_cycle st o).lastProcessedId = st.lastProcessedId ∧
        runTrace st (PipeAction.refill o :: acts) =
          runTrace (BufferedQueueManager.refill_cycle st o) acts ∧
        (stepAction (BufferedQueueManager.refill_cycle st o) PipeAction.dequeue).2 =
          (stepAction st PipeAction.dequeue).2) ∧
    (∀ m, o.dbExc = some m →
        (BufferedQueueManager.refill_cycle st o).queue = st.queue ∧
        (BufferedQueueManager.refill_cycle st o).lastProcessedId = st.lastProcessedId) := by
  constructor
  · intro h
    obtain ⟨h1, h2⟩ := refill_error_state st o h
    refine ⟨h1, h2, ?_, dequeue_of_queue_eq h1⟩
    simp [runTrace, stepAction]
  · intro m hm
    by_cases hfull : st.queue.length < st.capacity
    · have hcyc : BufferedQueueManager.refill_cycle st o = st := by
        unfold BufferedQueueManager.refill_cycle BufferedQueueManager.refill_try_body
        simp [hfull, hm, MongoDBManager.get_next_entry_exc]
      rw [hcyc]
      exact ⟨rfl, rfl⟩
    · have hcyc : BufferedQueueManager.refill_cycle st o = st := by
        unfold BufferedQueueManager.refill_cycle BufferedQueueManager.refill_try_body
        simp [hfull]
      rw [hcyc]
      exact ⟨rfl, rfl⟩

/-- A pipeline over a store holding one unprocessed pair. -/
def stC4 : PipelineState := initState [pairW1] 1

/-- Witness for C4: a renderer failure (empty frame list) and a driver
failure, each on a concrete one-entry store, leave the queue and
`last_processed_id` untouched and deliver the same (empty) dequeue
result. -/
theorem C4_witness :
    ((BufferedQueueManager.refill_cycle stC4 oracleBadRender).queue = stC4.queue ∧
      (BufferedQueueManager.refill_cycle stC4 oracleBadRender).lastProcessedId =
        stC4.lastProcessedId ∧
      runTrace stC4 (PipeAction.refill oracleBadRender :: []) =
        runTrace (BufferedQueueManager.refill_cycle stC4 oracleBadRender) [] ∧
      (stepAction (BufferedQueueManager.refill_cycle stC4 oracleBadRender)
          PipeAction.dequeue).2 =
        (stepAction stC4 PipeAction.dequeue).2) ∧
    ((BufferedQueueManager.refill_cycle stC4 oracleDbErr).queue = stC4.queue ∧
      (BufferedQueueManager.refill_cycle stC4 oracleDbErr).lastProcessedId =
        stC4.lastProcessedId) :=
  ⟨(C4_refill_errors_contained stC4 oracleBadRender []).1 (by decide),
   (C4_refill_errors_contained stC4 oracleDbErr []).2 connectionFailureMsg rfl⟩

/-! ## Claim C2: artifacts are not attached before the push -/

/-- Claim C2 evaluated on its failing input (a store holding one
unprocessed pair without artifacts, rendering succeeding): the renderer
returns both file paths but hands the pair back untouched, the refill
cycle enqueues the fetched pair itself, so the enqueued entry still has
`video1 = video2 = None` — while the legacy refill loop attached both
paths before pushing. -/
theorem C2_artifacts_not_attached :
    create_video_from_pair framesOk framesOk pairW1 =
      Except.ok (pairW1, video_folder ++ "/trajectory.webm",
        video_folder ++ "/trajectory.webm") ∧
    (BufferedQueueManager.refill_cycle (initState [pairW1] 1) oracleOk).queue =
      [pairW1] ∧
    pairW1.video1 = none ∧
    pairW1.video2 = none ∧
    (BufferedQueueManager.legacy_refill_cycle (initState [pairW1] 1) oracleOk).1.1.queue =
      [{ pairW1 with video1 := some legacyVideoPath1,
                     video2 := some legacyVideoPath2 }] := by
  refine ⟨rfl, by decide, rfl, rfl, by decide⟩

/-! ## Claim C6: store calls and sleeps per refill cycle -/

lemma refill_counted_sleeps_one (st : PipelineState) (o : RefillOracle) :
    (BufferedQueueManager.refill_cycle_counted st o).2.2 = 1 := by
  unfold BufferedQueueManager.refill_cycle_counted
  split
  · split
    · split <;> rfl
    · rfl
  · rfl

lemma refill_counted_full (st : PipelineState) (o : RefillOracle)
    (h : ¬ st.queue.length < st.capacity) :
    BufferedQueueManager.refill_cycle_counted st o = (st, 0, 1) := by
  unfold BufferedQueueManager.refill_cycle_counted
  simp [h]

lemma refill_counted_calls (st : PipelineState) (o : RefillOracle)
    (h : st.queue.length < st.capacity) :
    (BufferedQueueManager.refill_cycle_counted st o).2.1 = 1 := by
  unfold BufferedQueueManager.refill_cycle_counted
  rw [if_pos h]
  split
  · split <;> rfl
  · rfl

lemma legacy_full (st : PipelineState) (o : RefillOracle)
    (h : ¬ st.queue.length < st.capacity) :
    BufferedQueueManager.legacy_refill_cycle st o = ((st, 0, 1), none) := by
  unfold BufferedQueueManager.legacy_refill_cycle
  simp [h]

lemma legacy_no_entry (st : PipelineState) (o : RefillOracle)
    (h : st.queue.length < st.capacity)
    (hdb : (MongoDBManager.get_next_entry_exc o.dbExc st.mongo).1.1 = none) :
    (BufferedQueueManager.legacy_refill_cycle st o).1.2.2 = 2 ∧
    (BufferedQueueManager.legacy_refill_cycle st o).2 = none := by
  unfold BufferedQueueManager.legacy_refill_cycle
  rw [if_pos h]
  rcases hdb2 : MongoDBManager.get_next_entry_exc o.dbExc st.mongo with ⟨⟨oe, oerr⟩, m2⟩
  rw [hdb2] at hdb
  simp only at hdb
  subst hdb
  exact ⟨rfl, rfl⟩

lemma legacy_entry_rendered (st : PipelineState) (o : RefillOracle)
    (e : TrajectoryPair) (v1 v2 : String)
    (h : st.queue.length < st.capacity)
    (hdb : (MongoDBManager.get_next_entry_exc o.dbExc st.mongo).1.1 = some e)
    (hr : VideoExtractor.generate_video_from_pair o.frames1 o.frames2 =
      Except.ok (v1, v2)) :
    (BufferedQueueManager.legacy_refill_cycle st o).1.2.2 = 1 ∧
    (BufferedQueueManager.legacy_refill_cycle st o).2 = none := by
  unfold BufferedQueueManager.legacy_refill_cycle
  rw [if_pos h]
  rcases hdb2 : MongoDBManager.get_next_entry_exc o.dbExc st.mongo with ⟨⟨oe, oerr⟩, m2⟩
  rw [hdb2] at hdb
  simp only at hdb
  subst hdb
  rw [hr]
  exact ⟨rfl, rfl⟩

lemma legacy_entry_render_raises (st : PipelineState) (o : RefillOracle)
    (e : TrajectoryPair) (msg : String)
    (h : st.queue.length < st.capacity)
    (hdb : (MongoDBManager.get_next_entry_exc o.dbExc st.mongo).1.1 = some e)
    (hr : VideoExtractor.generate_video_from_pair o.frames1 o.frames2 =
      Except.error msg) :
    (BufferedQueueManager.legacy_refill_cycle st o).1.2.2 = 0 ∧
    (BufferedQueueManager.legacy_refill_cycle st o).2 = some msg ∧
    (BufferedQueueManager.legacy_refill_cycle st o).1.1.queue = st.queue := by
  unfold BufferedQueueManager.legacy_refill_cycle
  rw [if_pos h]
  rcases hdb2 : MongoDBManager.get_next_entry_exc o.dbExc st.mongo with ⟨⟨oe, oerr⟩, m2⟩
  rw [hdb2] at hdb
  simp only at hdb
  subst hdb
  rw [hr]
  exact ⟨rfl, rfl, rfl⟩

/-- A pipeline whose store is empty, so the fetch reports no entry. -/
def stEmptyStore : PipelineState := initState [] 1

/-- A pipeline whose queue is already at capacity. -/
def stFull : PipelineState :=
  { mongo := { collection := [pairW2], idOfCurrentVideo := none }
    queue := [pairW1]
    lastProcessedId := some 1
    capacity := 1 }

/-- Claim C6 counterexample: two legacy-loop cycles (the legacy loop is
one of the two loops the claim covers) that do not sleep exactly one
fixed interval. With a non-full queue and an empty store, the cycle
sleeps two intervals — the branch sleep at line 66 plus the
end-of-cycle sleep at line 67. With an entry found but the renderer
raising (empty frame list), the cycle sleeps zero intervals: the legacy
loop has no `try`/`except`, so the exception escapes before line 67. -/
theorem C6_counterexample :
    (BufferedQueueManager.legacy_refill_cycle stEmptyStore oracleOk).1.2.2 = 2 ∧
    ¬ (BufferedQueueManager.legacy_refill_cycle stEmptyStore oracleOk).1.2.2 = 1 ∧
    (BufferedQueueManager.legacy_refill_cycle stC4 oracleBadRender).1.2.2 = 0 ∧
    (BufferedQueueManager.legacy_refill_cycle stC4 oracleBadRender).2.isSome = true := by
  decide

/-- Claim C6 (amended): a refill cycle of the current loop sleeps
exactly one fixed interval on every branch, and neither loop calls the
store when the queue is already at capacity; the current loop also
leaves the state untouched in that case, and a full-queue legacy cycle
sleeps once. A non-full legacy cycle sleeps two intervals when the
fetch reports no entry, one interval when an entry is fetched and
rendered, and zero intervals when the renderer raises — the exception
escapes the legacy loop (which has no handler), nothing is enqueued,
and the refill thread dies. -/
theorem C6_amended (st : PipelineState) (o : RefillOracle) :
    (BufferedQueueManager.refill_cycle_counted st o).2.2 = 1 ∧
    (¬ st.queue.length < st.capacity →
        (BufferedQueueManager.refill_cycle_counted st o).2.1 = 0 ∧
        (BufferedQueueManager.refill_cycle_counted st o).1 = st ∧
        BufferedQueueManager.legacy_refill_cycle st o = ((st, 0, 1), none)) ∧
    (st.queue.length < st.capacity →
        (BufferedQueueManager.refill_cycle_counted st o).2.1 = 1) ∧
    (st.queue.length < st.capacity →
      ((MongoDBManager.get_next_entry_exc o.dbExc st.mongo).1.1 = none →
          (BufferedQueueManager.legacy_refill_cycle st o).1.2.2 = 2 ∧
          (BufferedQueueManager.legacy_refill_cycle st o).2 = none) ∧
      (∀ e, (MongoDBManager.get_next_entry_exc o.dbExc st.mongo).1.1 = some e →
        (∀ v1 v2,
          VideoExtractor.generate_video_from_pair o.frames1 o.frames2 =
              Except.ok (v1, v2) →
            (BufferedQueueManager.legacy_refill_cycle st o).1.2.2 = 1 ∧
            (BufferedQueueManager.legacy_refill_cycle st o).2 = none) ∧
        (∀ msg,
          VideoExtractor.generate_video_from_pair o.frames1 o.frames2 =
              Except.error msg →
            (BufferedQueueManager.legacy_refill_cycle st o).1.2.2 = 0 ∧
            (BufferedQueueManager.legacy_refill_cycle st o).2 = some msg ∧
            (BufferedQueueManager.legacy_refill_cycle st o).1.1.queue = st.queue))) := by
  refine ⟨refill_counted_sleeps_one st o, ?_, ?_, ?_⟩
  · intro h
    rw [refill_counted_full st o h, legacy_full st o h]
    exact ⟨rfl, rfl, rfl⟩
  · intro h
    exact refill_counted_calls st o h
  · intro h
    refine ⟨legacy_no_entry st o h, fun e he => ⟨?_, ?_⟩⟩
    · intro v1 v2 hr
      exact legacy_entry_rendered st o e v1 v2 h he hr
    · intro msg hr
      exact legacy_entry_render_raises st o e msg h he hr

/-- Witness for C6 (amended) at concrete states: an empty-store cycle of
the current loop sleeps once, a full-queue cycle makes no store call,
an empty-store legacy cycle sleeps twice, and a legacy cycle whose
renderer raises on an empty frame list sleeps zero times, lets the
exception escape and enqueues nothing. -/
theorem C6_witness :
    (BufferedQueueManager.refill_cycle_counted stEmptyStore oracleOk).2.2 = 1 ∧
    (BufferedQueueManager.refill_cycle_counted stFull oracleOk).2.1 = 0 ∧
    ((BufferedQueueManager.legacy_refill_cycle stEmptyStore oracleOk).1.2.2 = 2 ∧
      (BufferedQueueManager.legacy_refill_cycle stEmptyStore oracleOk).2 = none) ∧
    ((BufferedQueueManager.legacy_refill_cycle stC4 oracleBadRender).1.2.2 = 0 ∧
      (BufferedQueueManager.legacy_refill_cycle stC4 oracleBadRender).2 =
        some "The frames list is empty. Cannot generate video." ∧
      (BufferedQueueManager.legacy_refill_cycle stC4 oracleBadRender).1.1.queue =
        stC4.queue) :=
  ⟨(C6_amended stEmptyStore oracleOk).1,
   ((C6_amended stFull oracleOk).2.1 (by decide)).1,
   ((C6_amended stEmptyStore oracleOk).2.2.2 (by decide)).1 (by decide),
   (((C6_amended stC4 oracleBadRender).2.2.2 (by decide)).2 pairW1 (by decide)).2
     "The frames list is empty. Cannot generate video." rfl⟩

/-! ## Claim C7: seeded reconstruction -/

lemma opsSteps_seedReplay (s : Nat) : ∀ ts : List Transition,
    opsSteps (seedReplayOps s ts) = ts.map (fun tr => tr.action) := by
  intro ts
  induction ts with
  | nil => rfl
  | cons tr rest ih =>
      by_cases hb : (tr.terminated || tr.truncated) = true
      · simp [seedReplayOps, opsSteps, hb, ih]
      · simp [seedReplayOps, opsSteps, hb, ih]

lemma opsResetSeeds_seedReplay (s : Nat) : ∀ ts : List Transition,
    opsResetSeeds (seedReplayOps s ts) =
      List.replicate ((ts.filter (fun tr => tr.terminated || tr.truncated)).length) s := by
  intro ts
  induction ts with
  | nil => rfl
  | cons tr rest ih =>
      by_cases hb : (tr.terminated || tr.truncated) = true
      · simp [seedReplayOps, opsResetSeeds, hb, ih, List.replicate_succ]
      · simp [seedReplayOps, opsResetSeeds, hb, ih]

/-- A transition that ends its episode. -/
def trTerm : Transition :=
  { state := [0], action := [1], reward := 0,
    terminated := true, truncated := false, next_state := [0] }

/-- A trajectory carrying seed 7 with one terminal transition. -/
def tC7 : Trajectory :=
  { env_name := "CartPole-v1", seed := some 7, transitions := [trTerm] }

/-- Claim C7 counterexample: on a trajectory carrying seed 7 whose first
transition terminates the episode, the source replay resets again with
the same seed 7, whereas the claimed seed-queue behavior (here with
queue [7, 9]) would reset with the next seed 9; the traces differ. -/
theorem C7_counterexample :
    recreate_frames_from_trajectory_with_seed 7 tC7 =
      [EnvOp.reset 7, EnvOp.step [1], EnvOp.render, EnvOp.reset 7] ∧
    specSeedQueueTrace [7, 9] tC7 =
      [EnvOp.reset 7, EnvOp.step [1], EnvOp.render, EnvOp.reset 9] ∧
    ¬ recreate_frames_from_trajectory_with_seed 7 tC7 =
        specSeedQueueTrace [7, 9] tC7 := by
  decide

/-- Claim C7 (amended): for every trajectory carrying a seed, the
renderer resets the environment to that seed, replays each transition
action in order, and whenever a transition is terminated or truncated
it resets again using the same single seed — every reset of the trace
carries that one seed, one reset per episode boundary plus the initial
one; there is no seed queue. -/
theorem C7_amended (t : Trajectory) (s : Nat) (h : t.seed = some s) :
    (recreate_frames_from_trajectory_with_seed s t).head? =
      some (EnvOp.reset s) ∧
    opsSteps (recreate_frames_from_trajectory_with_seed s t) =
      t.transitions.map (fun tr => tr.action) ∧
    opsResetSeeds (recreate_frames_from_trajectory_with_seed s t) =
      List.replicate
        ((t.transitions.filter (fun tr => tr.terminated || tr.truncated)).length + 1)
        s := by
  refine ⟨rfl, ?_, ?_⟩
  · unfold recreate_frames_from_trajectory_with_seed
    simp [opsSteps, opsSteps_seedReplay]
  · unfold recreate_frames_from_trajectory_with_seed
    simp [opsResetSeeds, opsResetSeeds_seedReplay, List.replicate_succ]

/-- Witness for C7 (amended) on the concrete seeded trajectory. -/
theorem C7_witness :
    (recreate_frames_from_trajectory_with_seed 7 tC7).head? =
      some (EnvOp.reset 7) ∧
    opsSteps (recreate_frames_from_trajectory_with_seed 7 tC7) =
      tC7.transitions.map (fun tr => tr.action) ∧
    opsResetSeeds (recreate_frames_from_trajectory_with_seed 7 tC7) =
      List.replicate
        ((tC7.transitions.filter (fun tr => tr.terminated || tr.truncated)).length + 1)
        7 :=
  C7_amended tC7 7 rfl

/-! ## Claims C8 and C9: the label update -/

lemma updateOne_no_match :
    ∀ (docs : List TrajectoryPair) (pid : Nat) (uf : Option Pref × Option Bool),
      (∀ d ∈ docs, ¬ d.id = pid) →
      MongoDBManager.updateOne docs pid uf = (docs, 0) := by
  intro docs pid uf
  induction docs with
  | nil => intro _; rfl
  | cons d ds ih =>
      intro h
      have hd : ¬ d.id = pid := h d (List.mem_cons_self d ds)
      simp only [MongoDBManager.updateOne, hd, if_false,
        ih (fun x hx => h x (List.mem_cons_of_mem d hx))]

lemma updateOne_noop :
    ∀ (docs : List TrajectoryPair) (pid : Nat) (uf : Option Pref × Option Bool),
      (∀ d ∈ docs, d.id = pid → MongoDBManager.setFields uf d = d) →
      MongoDBManager.updateOne docs pid uf = (docs, 0) := by
  intro docs pid uf
  induction docs with
  | nil => intro _; rfl
  | cons d ds ih =>
      intro h
      by_cases hd : d.id = pid
      · have hfix := h d (List.mem_cons_self d ds) hd
        simp only [MongoDBManager.updateOne, hd, if_true, hfix, if_pos rfl]
      · simp only [MongoDBManager.updateOne, hd, if_false,
          ih (fun x hx hxp => h x (List.mem_cons_of_mem d hx) hxp)]

lemma updateOne_shape :
    ∀ (docs : List TrajectoryPair) (pid : Nat) (uf : Option Pref × Option Bool),
      ∀ d2 ∈ (MongoDBManager.updateOne docs pid uf).1,
        d2 ∈ docs ∨ ∃ d ∈ docs, d2 = MongoDBManager.setFields uf d := by
  intro docs pid uf
  induction docs with
  | nil => intro d2 h; simp [MongoDBManager.updateOne] at h
  | cons d ds ih =>
      intro d2 h
      by_cases hd : d.id = pid
      · simp only [MongoDBManager.updateOne, hd, if_true] at h
        rcases List.mem_cons.mp h with h1 | h2
        · exact Or.inr ⟨d, List.mem_cons_self d ds, h1⟩
        · exact Or.inl (List.mem_cons_of_mem d h2)
      · simp only [MongoDBManager.updateOne, hd, if_false] at h
        rcases List.mem_cons.mp h with h1 | h2
        · exact Or.inl (h1 ▸ List.mem_cons_self d ds)
        · rcases ih d2 h2 with h3 | ⟨d3, hd3, he3⟩
          · exact Or.inl (List.mem_cons_of_mem d h3)
          · exact Or.inr ⟨d3, List.mem_cons_of_mem d hd3, he3⟩

/-- A pair labeled with preference 0 and store identifier 5. -/
def pC8 : TrajectoryPair :=
  { TrajectoryPair.make 5 trajA trajA with preference := some Pref.video1 }

/-- A store without any document matching identifier 5. -/
def sC8NoMatch : MongoState := { collection := [pairW1], idOfCurrentVideo := none }

/-- A store whose only document already holds the values of `pC8`. -/
def sC8Noop : MongoState := { collection := [pC8], idOfCurrentVideo := none }

/-- Claim C8 counterexample: when no record matches the identifier,
`update_entry` does not fail with a distinct NotFound error — it
returns exactly the same single error result, the message of the
no-op case, that it returns when the matched record already holds the
given values. -/
theorem C8_counterexample :
    (MongoDBManager.update_entry sC8NoMatch pC8).1 =
      (none, some noUpdateNeededMsg) ∧
    (MongoDBManager.update_entry sC8Noop pC8).1 =
      (none, some noUpdateNeededMsg) ∧
    (MongoDBManager.update_entry sC8NoMatch pC8).1 =
      (MongoDBManager.update_entry sC8Noop pC8).1 := by
  decide

/-- Claim C8 (amended): `update_entry` performs a partial update of only
the preference and skipped fields — every document of the updated
collection is an original document or an original with only those two
fields rewritten — and it fails with the one error message
`noUpdateNeededMsg` both when no record matches the given identifier
and when the matched record already holds the given values; the two
failure cases are not distinguished. -/
theorem C8_update_entry_amended (s : MongoState) (p : TrajectoryPair) :
    (∀ d, (MongoDBManager.setFields (MongoDBManager.updateFields p) d).id = d.id ∧
      (MongoDBManager.setFields (MongoDBManager.updateFields p) d).trajectory1 =
        d.trajectory1 ∧
      (MongoDBManager.setFields (MongoDBManager.updateFields p) d).trajectory2 =
        d.trajectory2 ∧
      (MongoDBManager.setFields (MongoDBManager.updateFields p) d).env_name =
        d.env_name ∧
      (MongoDBManager.setFields (MongoDBManager.updateFields p) d).video1 =
        d.video1 ∧
      (MongoDBManager.setFields (MongoDBManager.updateFields p) d).video2 =
        d.video2) ∧
    ((∀ d ∈ s.collection, ¬ d.id = p.id) →
        MongoDBManager.update_entry s p = ((none, some noUpdateNeededMsg), s)) ∧
    ((∀ d ∈ s.collection, d.id = p.id →
        MongoDBManager.setFields (MongoDBManager.updateFields p) d = d) →
        MongoDBManager.update_entry s p = ((none, some noUpdateNeededMsg), s)) ∧
    (∀ d2 ∈ (MongoDBManager.update_entry s p).2.collection,
        d2 ∈ s.collection ∨
        ∃ d ∈ s.collection,
          d2 = MongoDBManager.setFields (MongoDBManager.updateFields p) d) := by
  have hcond : ¬ ((MongoDBManager.updateFields p).1 = none ∧
      (MongoDBManager.updateFields p).2 = none) := by
    simp [MongoDBManager.updateFields]
  refine ⟨fun d => ⟨rfl, rfl, rfl, rfl, rfl, rfl⟩, ?_, ?_, ?_⟩
  · intro h
    simp only [MongoDBManager.update_entry, hcond, if_false,
      updateOne_no_match s.collection p.id (MongoDBManager.updateFields p) h]
    simp
  · intro h
    simp only [MongoDBManager.update_entry, hcond, if_false,
      updateOne_noop s.collection p.id (MongoDBManager.updateFields p) h]
    simp
  · intro d2 h
    simp only [MongoDBManager.update_entry] at h
    rw [if_neg hcond] at h
    split at h
    · exact updateOne_shape s.collection p.id (MongoDBManager.updateFields p) d2 h
    · exact updateOne_shape s.collection p.id (MongoDBManager.updateFields p) d2 h

/-- Witness for C8 (amended) at concrete stores: the missing-record case
and the values-already-held case produce the same error result and
leave the store unchanged. -/
theorem C8_witness :
    MongoDBManager.update_entry sC8NoMatch pC8 =
      ((none, some noUpdateNeededMsg), sC8NoMatch) ∧
    MongoDBManager.update_entry sC8Noop pC8 =
      ((none, some noUpdateNeededMsg), sC8Noop) :=
  ⟨(C8_update_entry_amended sC8NoMatch pC8).2.1 (by decide),
   (C8_update_entry_amended sC8Noop pC8).2.2.1 (by decide)⟩

/-- Claim C9: for every valid pair, the skipped field is a non-optional
boolean defaulting to false, so the update document of `update_entry`
always contains the skipped field — also for a preference-only update —
and the no-update-fields error branch is unreachable. -/
theorem C9_skipped_always_present (s : MongoState) (p : TrajectoryPair) :
    (MongoDBManager.updateFields p).2 = some p.skipped ∧
    ¬ (MongoDBManager.updateFields p).2 = none ∧
    (∀ i t1 t2, (TrajectoryPair.make i t1 t2).skipped = false) ∧
    ¬ (MongoDBManager.update_entry s p).1.2 = some noUpdateFieldsMsg := by
  refine ⟨rfl, by simp [MongoDBManager.updateFields], fun i t1 t2 => rfl, ?_⟩
  simp only [MongoDBManager.update_entry]
  split
  · rename_i hcond
    exact absurd hcond.2 (by simp [MongoDBManager.updateFields])
  · split
    · intro hx
      exact absurd (Option.some.inj hx) (by decide)
    · simp

/-- Witness for C9 at a concrete store and pair. -/
theorem C9_witness :
    (MongoDBManager.updateFields pairW1).2 = some pairW1.skipped ∧
    ¬ (MongoDBManager.update_entry sC8NoMatch pairW1).1.2 =
        some noUpdateFieldsMsg :=
  ⟨(C9_skipped_always_present sC8NoMatch pairW1).1,
   (C9_skipped_always_present sC8NoMatch pairW1).2.2.2⟩

/-! ## Claim C10: gathering preferences -/

/-- Claim C10 evaluated on its failing input: `gather_preferences`
itself never raises and returns `[]` when the store is unreachable, but
it does not skip an unparsable document — one bad document makes the
per-document handler itself raise (its log message reads the popped
`_id`), the outer handler catches that, and the whole export comes back
empty, discarding the good documents too. -/
theorem C10_gather_drops_all_on_parse_failure :
    MongoDBManager.gather_preferences true [RawDoc.good pairW1, RawDoc.bad 99] = [] ∧
    MongoDBManager.gather_preferences true [RawDoc.good pairW1] =
      [(pairW1, pairW1.preference)] ∧
    MongoDBManager.gather_preferences false [RawDoc.good pairW1] = [] ∧
    ¬ MongoDBManager.gather_preferences true [RawDoc.good pairW1, RawDoc.bad 99] =
        [(pairW1, pairW1.preference)] := by
  decide

end RLDuels
